import Mathlib

/-!
Shallow embedding of the conversation-memory subsystem and the chat
orchestrator of the eva-erp-backend repository, together with proofs of
the behavioural claims about them.

Conventions of the embedding:
* JavaScript strings are Lean `String`s; `Date` values are modelled as
  `Nat` millisecond timestamps (rendered with `toString` where the code
  interpolates a value into a template string).
* `Array`s are Lean `List`s; the ES6 `Map` backing the session store is
  an insertion-ordered association list with unique keys.
* `str.includes(sub)` is `jsIncludes`; `str.toLowerCase()` is
  `lowerString`; `str.trim()` is `trimString`; `arr.slice(-n)` (for
  `n > 0`) is `lastN n`; `str.substring(0, n)` is `List.take n` on the
  character data.
* All definitions are written to be evaluable by the kernel (structural
  recursion only), so concrete runs can be checked with `decide`/`rfl`.
-/

namespace EvaErp

/-! ### JavaScript string primitives -/

/-- Does `l` start with `pat`? (character-list prefix check). -/
def startsWithChars : List Char → List Char → Bool
  | _, [] => true
  | [], _ :: _ => false
  | c :: cs, p :: ps => c == p && startsWithChars cs ps

/-- Does `pat` occur (contiguously) somewhere in `l`? -/
def occursIn (pat : List Char) : List Char → Bool
  | [] => pat.isEmpty
  | c :: cs => startsWithChars (c :: cs) pat || occursIn pat cs

/-- JavaScript `s.includes(sub)`: substring containment, `true` for the
empty search string. -/
def jsIncludes (s sub : String) : Bool :=
  occursIn sub.data s.data

/-- ASCII lower-casing of one character, as JS `toLowerCase` acts on the
ASCII texts this code matches against. -/
def charToLower (c : Char) : Char :=
  if 65 ≤ c.toNat ∧ c.toNat ≤ 90 then Char.ofNat (c.toNat + 32) else c

/-- JavaScript `s.toLowerCase()` (ASCII range). -/
def lowerString (s : String) : String :=
  String.mk (s.data.map charToLower)

def isJsWhitespace (c : Char) : Bool :=
  c == ' ' || c == '\t' || c == '\n' || c == '\r'

/-- JavaScript `s.trim()`. -/
def trimString (s : String) : String :=
  String.mk (((s.data.dropWhile isJsWhitespace).reverse.dropWhile isJsWhitespace).reverse)

/-- Split a character list at every character satisfying `p`
(single-character split, keeping empty fragments). -/
def charSplit (p : Char → Bool) : List Char → List (List Char)
  | [] => [[]]
  | c :: cs =>
    match charSplit p cs with
    | [] => [[]]
    | frag :: rest => if p c then [] :: frag :: rest else (c :: frag) :: rest

/-- Collapse helper: drop empty fragments except the final one, mirroring
how a regex split on a character *class with `+`* differs from a
single-character split (runs of separators produce no interior empty
fragments; a leading or trailing run still produces one empty fragment). -/
def keepLastDropEmpty : List String → List String
  | [] => []
  | [x] => [x]
  | x :: xs => if x.isEmpty then keepLastDropEmpty xs else x :: keepLastDropEmpty xs

def isSentenceSep (c : Char) : Bool :=
  c == '.' || c == '!' || c == '?'

/-- JavaScript `content.split(/[.!?]+/)`. -/
def splitSentences (content : String) : List String :=
  match (charSplit isSentenceSep content.data).map String.mk with
  | [] => []
  | first :: rest => first :: keepLastDropEmpty rest

/-- JS `arr.slice(-n)` for `n > 0`: the last `n` elements (all of them if
fewer), in original order. -/
def lastN (n : Nat) (l : List α) : List α :=
  l.drop (l.length - n)

/-! ### Data model (`src/services/conversationMemory.js`) -/

structure Decision where
  decision : String
  timestamp : Nat
  messageId : String
  deriving Repr, DecidableEq

structure Issue where
  issue : String
  timestamp : Nat
  status : String
  messageId : String
  deriving Repr, DecidableEq

structure Context where
  currentProject : Option String
  businessRequirements : List String
  technicalSpecs : List String
  implementationPhase : String
  stakeholders : List String
  decisions : List Decision
  openIssues : List Issue
  deriving Repr, DecidableEq

structure MessageMetadata where
  persona : String
  phase : String
  deriving Repr, DecidableEq

structure Message where
  id : String
  role : String
  content : String
  timestamp : Nat
  metadata : MessageMetadata
  deriving Repr, DecidableEq

structure AnalysisResult where
  id : String
  type : String
  result : String
  timestamp : Nat
  deriving Repr, DecidableEq

structure GeneratedArtifact where
  id : String
  type : String
  artifact : String
  timestamp : Nat
  deriving Repr, DecidableEq

structure SessionMetadata where
  createdAt : Nat
  lastActivity : Nat
  messageCount : Nat
  analysisResults : List AnalysisResult
  generatedArtifacts : List GeneratedArtifact
  deriving Repr, DecidableEq

structure Session where
  id : String
  persona : String
  messages : List Message
  context : Context
  metadata : SessionMetadata
  deriving Repr, DecidableEq

/-- The `this.conversations` ES6 `Map`, as an insertion-ordered
association list. -/
abbrev Store := List (String × Session)

def maxHistoryLength : Nat := 50

/-- 24 hours in milliseconds. -/
def sessionTimeout : Nat := 24 * 60 * 60 * 1000

/-- `Map.prototype.get`. -/
def mapGet (store : Store) (sid : String) : Option Session :=
  (List.find? (fun p => p.1 == sid) store).map (fun p => p.2)

/-- `Map.prototype.set`: replace in place if the key exists, else append. -/
def mapSet : Store → String → Session → Store
  | [], sid, s => [(sid, s)]
  | (k, v) :: rest, sid, s =>
    if k == sid then (sid, s) :: rest else (k, v) :: mapSet rest sid s

/-- `Map.prototype.delete` (on a store with unique keys). -/
def mapDelete (store : Store) (sid : String) : Store :=
  List.filter (fun p => p.1 != sid) store

/-- `initializeSession(sessionId, persona = 'general')`; `now` stands for
the two `new Date()` calls. -/
def initializeSession (sessionId : String) (persona : String) (now : Nat) : Session :=
  { id := sessionId
    persona := persona
    messages := []
    context :=
      { currentProject := none
        businessRequirements := []
        technicalSpecs := []
        implementationPhase := "discovery"
        stakeholders := []
        decisions := []
        openIssues := [] }
    metadata :=
      { createdAt := now
        lastActivity := now
        messageCount := 0
        analysisResults := []
        generatedArtifacts := [] } }

/-! ### Context Extractor (`updateContextFromMessage` and helpers) -/

/-- The phase-detection `if`/`else if` chain (lines 106-116): `content`
is the already lower-cased message text; an unmatched text leaves the
phase unchanged. -/
def detectPhase (content : String) (current : String) : String :=
  if jsIncludes content "requirement" || jsIncludes content "analyze" then
    "requirements"
  else if jsIncludes content "design" || jsIncludes content "architect" then
    "design"
  else if jsIncludes content "implement" || jsIncludes content "configure" then
    "implementation"
  else if jsIncludes content "test" || jsIncludes content "validate" then
    "testing"
  else if jsIncludes content "deploy" || jsIncludes content "go-live" then
    "deployment"
  else
    current

/-- First sentence whose lower-cased text matches one of three keywords,
trimmed; `none` models the `null` return. Common body of the five
`extract*FromMessage` helpers. -/
def extractFirstSentence (k1 k2 k3 : String) (content : String) : Option String :=
  (List.find? (fun sentence =>
      jsIncludes (lowerString sentence) k1 ||
      jsIncludes (lowerString sentence) k2 ||
      jsIncludes (lowerString sentence) k3)
    (splitSentences content)).map trimString

def extractRequirementFromMessage (content : String) : Option String :=
  extractFirstSentence "requirement" "need" "must" content

def extractTechnicalSpecFromMessage (content : String) : Option String :=
  extractFirstSentence "system" "technical" "integration" content

def extractStakeholderFromMessage (content : String) : Option String :=
  extractFirstSentence "team" "user" "stakeholder" content

def extractDecisionFromMessage (content : String) : Option String :=
  extractFirstSentence "decide" "choose" "select" content

def extractIssueFromMessage (content : String) : Option String :=
  extractFirstSentence "issue" "problem" "challenge" content

/-- Trigger of the business-requirements block (line 119). -/
def mentionsBusinessRequirement (content : String) : Bool :=
  jsIncludes content "business" &&
    (jsIncludes content "requirement" || jsIncludes content "process")

/-- Trigger of the technical-specifications block (line 127). -/
def mentionsTechnical (content : String) : Bool :=
  jsIncludes content "technical" || jsIncludes content "system" ||
    jsIncludes content "integration"

/-- Trigger of the stakeholders block (line 135). -/
def mentionsStakeholder (content : String) : Bool :=
  jsIncludes content "stakeholder" || jsIncludes content "team" ||
    jsIncludes content "user"

/-- Trigger of the decisions block (line 143). -/
def mentionsDecision (content : String) : Bool :=
  jsIncludes content "decide" || jsIncludes content "choose" ||
    jsIncludes content "select"

/-- Trigger of the open-issues block (line 155). -/
def mentionsIssue (content : String) : Bool :=
  jsIncludes content "issue" || jsIncludes content "problem" ||
    jsIncludes content "challenge"

/-- The common shape of the guarded pushes to `businessRequirements`,
`technicalSpecs` and `stakeholders`:
`if (value && !list.includes(value)) list.push(value)` under the block's
keyword trigger. A `none` extraction and an extracted empty string are
both falsy in JS, so neither is pushed. -/
def dedupAppendStep (trigger : Bool) (extracted : Option String)
    (l : List String) : List String :=
  if trigger then
    match extracted with
    | some s =>
      if s.isEmpty then l
      else if l.contains s then l
      else l ++ [s]
    | none => l
  else l

/-- Lines 118-124 (mutates only `businessRequirements`). -/
def applyRequirementStep (c : Context) (m : Message) (content : String) : Context :=
  let updated := dedupAppendStep (mentionsBusinessRequirement content)
    (extractRequirementFromMessage m.content) c.businessRequirements
  { c with businessRequirements := updated }

/-- Lines 126-132 (mutates only `technicalSpecs`). -/
def applyTechSpecStep (c : Context) (m : Message) (content : String) : Context :=
  let updated := dedupAppendStep (mentionsTechnical content)
    (extractTechnicalSpecFromMessage m.content) c.technicalSpecs
  { c with technicalSpecs := updated }

/-- Lines 134-140 (mutates only `stakeholders`). -/
def applyStakeholderStep (c : Context) (m : Message) (content : String) : Context :=
  let updated := dedupAppendStep (mentionsStakeholder content)
    (extractStakeholderFromMessage m.content) c.stakeholders
  { c with stakeholders := updated }

/-- Lines 142-152: decisions are pushed unconditionally (no duplicate
check); the extracted value must still be truthy. -/
def applyDecisionStep (c : Context) (m : Message) (content : String) : Context :=
  { c with decisions :=
      if mentionsDecision content then
        match extractDecisionFromMessage m.content with
        | some decision =>
          if decision.isEmpty then c.decisions
          else c.decisions ++
            [{ decision := decision, timestamp := m.timestamp, messageId := m.id }]
        | none => c.decisions
      else c.decisions }

/-- Lines 154-165: open issues are pushed unconditionally with
`status: "open"`. -/
def applyIssueStep (c : Context) (m : Message) (content : String) : Context :=
  { c with openIssues :=
      if mentionsIssue content then
        match extractIssueFromMessage m.content with
        | some issue =>
          if issue.isEmpty then c.openIssues
          else c.openIssues ++
            [{ issue := issue, timestamp := m.timestamp,
               status := "open", messageId := m.id }]
        | none => c.openIssues
      else c.openIssues }

/-- The context part of `updateContextFromMessage(session, message)`:
the six keyword blocks applied in source order to the lower-cased text. -/
def updateContextCore (c : Context) (m : Message) : Context :=
  let content := lowerString m.content
  let c1 := { c with implementationPhase := detectPhase content c.implementationPhase }
  let c2 := applyRequirementStep c1 m content
  let c3 := applyTechSpecStep c2 m content
  let c4 := applyStakeholderStep c3 m content
  let c5 := applyDecisionStep c4 m content
  applyIssueStep c5 m content

/-- `updateContextFromMessage` mutates only `session.context`. -/
def updateContextFromMessage (session : Session) (message : Message) : Session :=
  { session with context := updateContextCore session.context message }

/-! ### `addMessage` and the read operations -/

/-- The non-deterministic inputs of one `addMessage` call: the text and
role plus the ambient `Date.now()` value and the random id suffix. -/
structure AddInput where
  message : String
  role : String
  now : Nat
  rand : String
  deriving Repr, DecidableEq

/-- The `messageObj` literal of `addMessage` (lines 44-53). -/
def mkMessageObj (session : Session) (inp : AddInput) : Message :=
  { id := "msg_" ++ toString inp.now ++ "_" ++ inp.rand
    role := inp.role
    content := inp.message
    timestamp := inp.now
    metadata := { persona := session.persona
                  phase := session.context.implementationPhase } }

/-- The session-mutating part of `addMessage` (lines 44-67): push the
message, bump `lastActivity`/`messageCount`, trim to the last
`maxHistoryLength` messages, then run the context extractor. -/
def addMessageCore (session : Session) (inp : AddInput) : Session × Message :=
  let messageObj := mkMessageObj session inp
  let afterPush : Session :=
    { session with
      messages := session.messages ++ [messageObj]
      metadata := { session.metadata with
                    lastActivity := inp.now
                    messageCount := session.metadata.messageCount + 1 } }
  let trimmed : Session :=
    if afterPush.messages.length > maxHistoryLength then
      { afterPush with messages := lastN maxHistoryLength afterPush.messages }
    else afterPush
  (updateContextFromMessage trimmed messageObj, messageObj)

/-- `addMessage(sessionId, message, role)`: lazily initializes the
session (persona `"general"`) and writes the mutated session back. -/
def addMessage (store : Store) (sid : String) (inp : AddInput) : Store × Message :=
  let session := (mapGet store sid).getD (initializeSession sid "general" inp.now)
  let result := addMessageCore session inp
  (mapSet store sid result.1, result.2)

/-- Iterated `addMessageCore` on one session. -/
def runSession (start : Session) (inputs : List AddInput) : Session :=
  inputs.foldl (fun s i => (addMessageCore s i).1) start

/-- Variant of `addMessageCore` with the trim step removed. It is used
only to *state* the trim claim: its `messages` field is the full
append-only history, so the real session must retain exactly the last
`maxHistoryLength` entries of it. -/
def addMessageCoreUnbounded (session : Session) (inp : AddInput) : Session × Message :=
  let messageObj := mkMessageObj session inp
  let afterPush : Session :=
    { session with
      messages := session.messages ++ [messageObj]
      metadata := { session.metadata with
                    lastActivity := inp.now
                    messageCount := session.metadata.messageCount + 1 } }
  (updateContextFromMessage afterPush messageObj, messageObj)

def runSessionUnbounded (start : Session) (inputs : List AddInput) : Session :=
  inputs.foldl (fun s i => (addMessageCoreUnbounded s i).1) start

/-- `getConversationHistory(sessionId, limit = null)` (lines 71-83).
`limit` is `Option Nat`: `none` is the `null` default. The JS guard
`if (limit)` is falsy both for `null` and for `0`. -/
def getConversationHistory (store : Store) (sid : String) (limit : Option Nat) : List Message :=
  match mapGet store sid with
  | none => []
  | some session =>
    match limit with
    | none => session.messages
    | some n => if n == 0 then session.messages else lastN n session.messages

/-- Return shape of `getSessionContext` (lines 92-98). -/
structure SessionSnapshot where
  sessionId : String
  persona : String
  context : Context
  metadata : SessionMetadata
  recentMessages : List Message
  deriving Repr, DecidableEq

/-- `getSessionContext(sessionId)`: `null` (here `none`) for an unknown
session, else a snapshot with the last 10 messages. -/
def getSessionContext (store : Store) (sid : String) : Option SessionSnapshot :=
  (mapGet store sid).map (fun session =>
    { sessionId := sid
      persona := session.persona
      context := session.context
      metadata := session.metadata
      recentMessages := lastN 10 session.messages })

/-- The method names defined by `class ConversationMemory` in
`src/services/conversationMemory.js`. The chat router's clear endpoint
calls `conversationMemory.clearMemory(sessionId)`; since that name is
not among the class's methods, the property access yields `undefined`
and the call raises a `TypeError` at runtime. -/
def conversationMemoryMethods : List String :=
  ["initializeSession", "addMessage", "getConversationHistory",
   "getSessionContext", "updateContextFromMessage",
   "extractRequirementFromMessage", "extractTechnicalSpecFromMessage",
   "extractStakeholderFromMessage", "extractDecisionFromMessage",
   "extractIssueFromMessage", "addAnalysisResult", "addGeneratedArtifact",
   "updatePersona", "generateContextSummary", "resolveIssue",
   "cleanupExpiredSessions", "exportSession", "getConversationStats"]

/-! ### Context Summarizer (`generateContextSummary`, lines 279-321) -/

/-- `msg.content.substring(0, 200) + (msg.content.length > 200 ? '...' : '')`. -/
def truncateForSummary (content : String) : String :=
  String.mk (content.data.take 200) ++
    (if 200 < content.data.length then "..." else "")

def generateContextSummary (store : Store) (sid : String) : String :=
  match mapGet store sid with
  | none => "No previous context available."
  | some session =>
    let businessRequirements := lastN 5 session.context.businessRequirements
    let technicalSpecs := lastN 3 session.context.technicalSpecs
    let recentDecisions := lastN 3 session.context.decisions
    let openIssues :=
      lastN 3 (session.context.openIssues.filter (fun issue => issue.status == "open"))
    let recentMessages :=
      (lastN 5 session.messages).map
        (fun msg => (msg.role, truncateForSummary msg.content, msg.timestamp))
    "\nCONVERSATION CONTEXT:\n- Current Persona: " ++ session.persona ++
    "\n- Implementation Phase: " ++ session.context.implementationPhase ++
    "\n- Total Messages: " ++ toString session.metadata.messageCount ++
    "\n\nBUSINESS REQUIREMENTS IDENTIFIED:\n" ++
    String.intercalate "\n" (businessRequirements.map (fun req => "- " ++ req)) ++
    "\n\nTECHNICAL SPECIFICATIONS:\n" ++
    String.intercalate "\n" (technicalSpecs.map (fun spec => "- " ++ spec)) ++
    "\n\nRECENT DECISIONS:\n" ++
    String.intercalate "\n" (recentDecisions.map
      (fun dec => "- " ++ dec.decision ++ " (" ++ toString dec.timestamp ++ ")")) ++
    "\n\nOPEN ISSUES:\n" ++
    String.intercalate "\n" (openIssues.map
      (fun issue => "- " ++ issue.issue ++ " (" ++ toString issue.timestamp ++ ")")) ++
    "\n\nRECENT CONVERSATION:\n" ++
    String.intercalate "\n" (recentMessages.map
      (fun msg => msg.1 ++ ": " ++ msg.2.1)) ++
    "\n    "

/-! ### Expiry sweep (`cleanupExpiredSessions`, lines 340-356) -/

/-- `now - session.metadata.lastActivity > this.sessionTimeout`,
computed over `Int` as JS date arithmetic is signed. -/
def sessionExpired (now : Nat) (session : Session) : Bool :=
  (sessionTimeout : Int) < (now : Int) - (session.metadata.lastActivity : Int)

/-- Collect the expired session ids, delete each of them, and return the
new store together with the number of deleted sessions. -/
def cleanupExpiredSessions (now : Nat) (store : Store) : Store × Nat :=
  let expiredSessions :=
    (store.filter (fun p => sessionExpired now p.2)).map (fun p => p.1)
  (expiredSessions.foldl (fun st sid => mapDelete st sid) store,
   expiredSessions.length)

/-! ### Chat orchestrator (`GroqService.chat`, `src/unnamed/part_000`)

The provider API is external: it is modelled as a function from the
built message list to an `Except`, where `.error e` stands for any
rejection of the awaited `Promise.race` — a provider failure or the
30-second timeout (`"Groq API timeout after 30 seconds"`). -/

structure GroqChatMessage where
  role : String
  content : String
  deriving Repr, DecidableEq

/-- `choices[0]?.message?.content`: both the `message` field and its
`content` field may be absent. -/
structure GroqChoiceMessage where
  content : Option String
  deriving Repr, DecidableEq

structure GroqChoice where
  message : Option GroqChoiceMessage
  deriving Repr, DecidableEq

structure GroqUsage where
  total_tokens : Nat
  deriving Repr, DecidableEq

structure GroqResponse where
  choices : List GroqChoice
  usage : Option GroqUsage
  deriving Repr, DecidableEq

/-- Metadata of a chat result: the success shape carries no `error`
field (falsy in JS), the failure shape carries `error: true` plus the
message. -/
inductive ChatMetadata where
  | success (persona model : String) (tokensUsed responseTime : Nat)
      (contextType : String)
  | failure (errorMessage : String)
  deriving Repr, DecidableEq

/-- Reading `metadata.error` in JS: absent on the success shape (falsy),
`true` on the failure shape. -/
def metadataErrorFlag : ChatMetadata → Bool
  | .success _ _ _ _ _ => false
  | .failure _ => true

structure ChatResult where
  content : String
  metadata : ChatMetadata
  suggestions : List String
  deriving Repr, DecidableEq

def apologyText : String :=
  "I apologize, but I encountered an error processing your request. Please try again."

/-- The `catch` block of `GroqService.chat` (lines 187-201): the error
is converted into an apology payload instead of being rethrown. -/
def chatErrorResult (errorMessage : String) : ChatResult :=
  { content := apologyText
    metadata := .failure errorMessage
    suggestions := [] }

/-- `getSystemPrompt(persona, context)`. The prompts module of this
repository exports `{ ERPPrompts }` only, so every `prompts.xxxPrompt`
lookup is `undefined` and each ternary takes its fallback string; the
surrounding `try` means the function never throws. -/
def getSystemPrompt (persona : String) : String :=
  if persona == "sap_consultant" then "You are EVA, a SAP consultant."
  else if persona == "erp_analyst" then "You are EVA, an ERP analyst."
  else if persona == "technical_architect" then "You are EVA, a technical architect."
  else if persona == "business_analyst" then "You are EVA, a business analyst."
  else if persona == "implementation_specialist" then "You are EVA, an implementation specialist."
  else "You are EVA, an expert ERP assistant."

/-- `buildDirectMessages(systemPrompt, conversationHistory, currentMessage)`. -/
def buildDirectMessages (systemPrompt : String) (conversationHistory : List GroqChatMessage)
    (currentMessage : String) : List GroqChatMessage :=
  { role := "system", content := systemPrompt } ::
    (conversationHistory.map (fun msg => { role := msg.role, content := msg.content }) ++
      [{ role := "user", content := currentMessage }])

/-- `processResponse(content, persona, context)`: returns the content
unchanged plus a persona-keyed static suggestion list. -/
def processResponse (content : String) (persona : String) : String × List String :=
  let suggestions :=
    if persona == "sap_consultant" then
      ["Explore SAP modules integration", "Review technical specifications",
       "Consider customization options", "Plan implementation timeline"]
    else if persona == "erp_analyst" then
      ["Analyze business requirements", "Review current processes",
       "Identify improvement areas", "Estimate implementation costs"]
    else []
  (content, suggestions)

/-- `response.choices[0]?.message?.content`. -/
def extractContent (response : GroqResponse) : Option String :=
  (response.choices.head?.bind GroqChoice.message).bind GroqChoiceMessage.content

def defaultModel : String := "llama3-70b-8192"

/-- `GroqService.chat(message, options)` (lines 114-202). The whole body
runs inside `try`/`catch`: a provider rejection (including the timeout
race) or the `if (!content) throw` guard lands in the `catch` block,
which returns `chatErrorResult` instead of propagating. `responseTime`
is the measured latency, an ambient input here. -/
def groqChat (message persona contextType : String)
    (conversationHistory : List GroqChatMessage)
    (provider : List GroqChatMessage → Except String GroqResponse)
    (responseTime : Nat) : ChatResult :=
  let systemPrompt := getSystemPrompt persona
  let messages := buildDirectMessages systemPrompt conversationHistory message
  match provider messages with
  | .error e => chatErrorResult e
  | .ok response =>
    match extractContent response with
    | none => chatErrorResult "No content in Groq response"
    | some content =>
      if content.isEmpty then chatErrorResult "No content in Groq response"
      else
        let processed := processResponse content persona
        { content := processed.1
          metadata := .success persona defaultModel
            (match response.usage with | some u => u.total_tokens | none => 0)
            responseTime contextType
          suggestions := processed.2 }

/-! ### Claim C1: phase precedence on multi-phase messages -/

/-- The fixed phase order with its keyword lists, as in the spec's
description of phase detection. -/
def phaseKeywordTable : List (String × List String) :=
  [("requirements", ["requirement", "analyze"]),
   ("design", ["design", "architect"]),
   ("implementation", ["implement", "configure"]),
   ("testing", ["test", "validate"]),
   ("deployment", ["deploy", "go-live"])]

/-- The first phase in the fixed order one of whose terms occurs in the
text — the spec-level description of what the `if`/`else if` chain
actually computes. -/
def firstMatchingPhase (content : String) : Option String :=
  (phaseKeywordTable.find? (fun p => p.2.any (fun term => jsIncludes content term))).map
    (fun p => p.1)

/-- A concrete C1 tie message for the counterexample. -/
def tieMessage : Message :=
  { id := "msg_0_a", role := "user", content := "test deploy", timestamp := 0,
    metadata := { persona := "general", phase := "discovery" } }

/-- C1, counterexample: the message `"test deploy"` contains phase terms
of both `testing` and `deployment`, yet the resulting phase is
`"testing"`, not `"deployment"` — the check listed *last* does not win. -/
theorem c1_last_phase_wins_counterexample :
    jsIncludes "test deploy" "test" = true ∧
    jsIncludes "test deploy" "deploy" = true ∧
    (updateContextFromMessage (initializeSession "s1" "general" 0)
        tieMessage).context.implementationPhase = "testing" ∧
    ("testing" = "deployment" → False) := by
  refine ⟨by decide, by decide, by decide, by decide⟩

/-- C1, amended: on ties the phase check listed *first* in the fixed
order wins — for every text, the `if`/`else if` chain assigns the first
phase in the order (requirements, design, implementation, testing,
deployment) one of whose terms occurs, and leaves the phase unchanged
when none occurs. -/
theorem c1_first_matching_phase_wins (content current : String) :
    detectPhase content current = (firstMatchingPhase content).getD current := by
  simp only [firstMatchingPhase, phaseKeywordTable, detectPhase]
  cases h1 : (jsIncludes content "requirement" || jsIncludes content "analyze") <;>
  cases h2 : (jsIncludes content "design" || jsIncludes content "architect") <;>
  cases h3 : (jsIncludes content "implement" || jsIncludes content "configure") <;>
  cases h4 : (jsIncludes content "test" || jsIncludes content "validate") <;>
  cases h5 : (jsIncludes content "deploy" || jsIncludes content "go-live") <;>
  simp [List.find?, List.any, h1, h2, h3, h4, h5]

/-! ### Claim C2: the multi-currency business-requirement message -/

/-- The concrete message of claim C2. -/
def multiCurrencyText : String :=
  "We need a business requirement that the system must support multi-currency,"

def multiCurrencyMessage : Message :=
  { id := "msg_0_b", role := "user", content := multiCurrencyText, timestamp := 0,
    metadata := { persona := "general", phase := "discovery" } }

/-- C2, counterexample: the claim says the phase is left unchanged, but
the text contains the phase keyword `"requirement"`, so extraction moves
the fresh session's phase from `"discovery"` to `"requirements"`. -/
theorem c2_phase_unchanged_counterexample :
    (initializeSession "s1" "general" 0).context.implementationPhase = "discovery" ∧
    (updateContextFromMessage (initializeSession "s1" "general" 0)
        multiCurrencyMessage).context.implementationPhase = "requirements" ∧
    ("requirements" = "discovery" → False) := by
  refine ⟨by decide, by decide, by decide⟩

/-- C2, amended: on that message, context extraction sets
`implementationPhase` to `"requirements"` (the text contains the phase
keyword `"requirement"`) and appends to `businessRequirements` a string
containing the word `"requirement"` (the whole message, its only
sentence). -/
theorem c2_requirement_extracted :
    (updateContextFromMessage (initializeSession "s1" "general" 0)
        multiCurrencyMessage).context.implementationPhase = "requirements" ∧
    (updateContextFromMessage (initializeSession "s1" "general" 0)
        multiCurrencyMessage).context.businessRequirements = [multiCurrencyText] ∧
    jsIncludes multiCurrencyText "requirement" = true := by
  refine ⟨by decide, by decide, by decide⟩

/-! ### Claim C3: unknown-session reads, and the clear endpoint -/

/-- C3: for a session id unknown to the store, `getConversationHistory`
returns `[]` (for every `limit`) and `getSessionContext` returns `null`.
The clear part of the claim fails on the code: the clear route invokes
`conversationMemory.clearMemory(sessionId)`, but `clearMemory` is not
among the methods of `ConversationMemory`, so every clear request —
unknown or known id — raises a `TypeError` instead of (idempotently)
removing the session; the last conjunct records the missing method. -/
theorem c3_unknown_session_reads (store : Store) (sid : String)
    (h : mapGet store sid = none) :
    (∀ limit, getConversationHistory store sid limit = []) ∧
    getSessionContext store sid = none ∧
    conversationMemoryMethods.contains "clearMemory" = false := by
  refine ⟨fun limit => ?_, ?_, by decide⟩
  · simp [getConversationHistory, h]
  · simp [getSessionContext, h]

theorem c3_unknown_session_reads_witness :
    mapGet ([] : Store) "unknown" = none ∧
    ((∀ limit, getConversationHistory ([] : Store) "unknown" limit = []) ∧
     getSessionContext ([] : Store) "unknown" = none ∧
     conversationMemoryMethods.contains "clearMemory" = false) :=
  ⟨rfl, c3_unknown_session_reads [] "unknown" rfl⟩

/-! ### Claim C10: `limit = 0` is treated as unset -/

/-- C10: for an existing session, a positive `limit` yields the last
`limit` messages in original order (a suffix of the stored list), while
`limit = 0` is falsy in the `if (limit)` guard and yields *all*
messages. -/
theorem c10_history_limit_semantics (store : Store) (sid : String) (session : Session)
    (h : mapGet store sid = some session) :
    getConversationHistory store sid (some 0) = session.messages ∧
    (∀ n : Nat, 0 < n →
      getConversationHistory store sid (some n) = lastN n session.messages ∧
      List.IsSuffix (lastN n session.messages) session.messages) := by
  refine ⟨by simp [getConversationHistory, h], fun n hn => ⟨?_, ?_⟩⟩
  · have hne : n ≠ 0 := Nat.pos_iff_ne_zero.mp hn
    simp [getConversationHistory, h, hne]
  · simpa [lastN] using List.drop_suffix (session.messages.length - n) session.messages

def c10Message (i : Nat) : Message :=
  { id := "msg_" ++ toString i ++ "_w", role := "user",
    content := "hello " ++ toString i, timestamp := i,
    metadata := { persona := "general", phase := "discovery" } }

def c10Session : Session :=
  { initializeSession "w10" "general" 0 with
    messages := [c10Message 1, c10Message 2, c10Message 3] }

def c10Store : Store := [("w10", c10Session)]

theorem c10_history_limit_semantics_witness :
    mapGet c10Store "w10" = some c10Session ∧
    (getConversationHistory c10Store "w10" (some 0) = c10Session.messages ∧
     (∀ n : Nat, 0 < n →
       getConversationHistory c10Store "w10" (some n) = lastN n c10Session.messages ∧
       List.IsSuffix (lastN n c10Session.messages) c10Session.messages)) :=
  ⟨rfl, c10_history_limit_semantics c10Store "w10" c10Session rfl⟩

/-! ### Claim C7: chat orchestrator error policy -/

/-- C7: whenever the provider call rejects (failure or the 30-second
timeout race) or the `choices[0]?.message?.content` value is absent or
empty (the `if (!content) throw` guard), `GroqService.chat` returns the
textual apology with `error: true` metadata instead of propagating the
exception. (`groqChat` is a total function, so no other outcome
escapes.) -/
theorem c7_errors_become_apology (message persona contextType : String)
    (history : List GroqChatMessage)
    (provider : List GroqChatMessage → Except String GroqResponse)
    (responseTime : Nat)
    (h : (∃ e, provider (buildDirectMessages (getSystemPrompt persona) history message)
            = .error e) ∨
         (∃ r, provider (buildDirectMessages (getSystemPrompt persona) history message)
            = .ok r ∧ (extractContent r = none ∨ extractContent r = some ""))) :
    (groqChat message persona contextType history provider responseTime).content
      = apologyText ∧
    metadataErrorFlag
      (groqChat message persona contextType history provider responseTime).metadata
      = true := by
  unfold groqChat
  rcases h with ⟨e, he⟩ | ⟨r, hr, hc | hc⟩
  · simp [he, chatErrorResult, metadataErrorFlag]
  · simp [hr, hc, chatErrorResult, metadataErrorFlag]
  · simp [hr, hc, chatErrorResult, metadataErrorFlag, String.isEmpty]

/-- The provider outcome produced by the 30-second timeout race. -/
def timeoutProvider : List GroqChatMessage → Except String GroqResponse :=
  fun _ => .error "Groq API timeout after 30 seconds"

theorem c7_errors_become_apology_witness :
    (∃ e, timeoutProvider (buildDirectMessages (getSystemPrompt "general") [] "hello")
       = .error e) ∧
    ((groqChat "hello" "general" "general" [] timeoutProvider 5).content = apologyText ∧
     metadataErrorFlag
       (groqChat "hello" "general" "general" [] timeoutProvider 5).metadata = true) :=
  ⟨⟨"Groq API timeout after 30 seconds", rfl⟩,
   c7_errors_become_apology "hello" "general" "general" [] timeoutProvider 5
     (Or.inl ⟨"Groq API timeout after 30 seconds", rfl⟩)⟩

/-! ### Claims C4 and C5: trim invariant and monotonic message counter -/

theorem lastN_snoc_trim {α : Type _} (n : Nat) (l : List α) (m : α) :
    (if (lastN n l ++ [m]).length > n
     then lastN n (lastN n l ++ [m])
     else lastN n l ++ [m]) = lastN n (l ++ [m]) := by
  by_cases hn : l.length < n
  · have h0 : l.length - n = 0 := by omega
    have h1 : l.length + 1 - n = 0 := by omega
    simp [lastN, h0, h1, List.length_append, List.length_drop]
  · push_neg at hn
    have hcond : (lastN n l ++ [m]).length > n := by
      simp only [lastN, List.length_append, List.length_drop, List.length_cons,
        List.length_nil]
      omega
    rw [if_pos hcond]
    show List.drop ((lastN n l ++ [m]).length - n) (lastN n l ++ [m]) = lastN n (l ++ [m])
    have hd1 : (lastN n l ++ [m]).length - n = 1 := by
      simp only [lastN, List.length_append, List.length_drop, List.length_cons,
        List.length_nil]
      omega
    rw [hd1]
    rcases Nat.eq_zero_or_pos n with h0 | hpos
    · subst h0
      simp [lastN, List.drop_eq_nil_of_le, List.length_append]
    · unfold lastN
      rw [List.drop_append_of_le_length
        (by simp only [List.length_drop]; omega : 1 ≤ (List.drop (l.length - n) l).length)]
      rw [List.drop_drop]
      rw [List.length_append]
      rw [List.drop_append_of_le_length
        (by simp only [List.length_cons, List.length_nil]; omega :
          l.length + [m].length - n ≤ l.length)]
      have harith : l.length - n + 1 = l.length + [m].length - n := by
        simp only [List.length_cons, List.length_nil]
        omega
      rw [harith]

theorem addMessageCore_metadata (s : Session) (inp : AddInput) :
    ((addMessageCore s inp).1).metadata =
      { s.metadata with lastActivity := inp.now,
                        messageCount := s.metadata.messageCount + 1 } := by
  simp only [addMessageCore, updateContextFromMessage]
  split <;> rfl

theorem addMessageCore_id (s : Session) (inp : AddInput) :
    ((addMessageCore s inp).1).id = s.id := by
  simp only [addMessageCore, updateContextFromMessage]
  split <;> rfl

theorem addMessageCore_persona (s : Session) (inp : AddInput) :
    ((addMessageCore s inp).1).persona = s.persona := by
  simp only [addMessageCore, updateContextFromMessage]
  split <;> rfl

theorem addMessageCore_context (s : Session) (inp : AddInput) :
    ((addMessageCore s inp).1).context =
      updateContextCore s.context (mkMessageObj s inp) := by
  simp only [addMessageCore, updateContextFromMessage]
  split <;> rfl

theorem addMessageCore_messages (s : Session) (inp : AddInput) :
    ((addMessageCore s inp).1).messages =
      (if (s.messages ++ [mkMessageObj s inp]).length > maxHistoryLength
       then lastN maxHistoryLength (s.messages ++ [mkMessageObj s inp])
       else s.messages ++ [mkMessageObj s inp]) := by
  simp only [addMessageCore, updateContextFromMessage]
  split <;> simp_all

theorem addMessageCoreUnbounded_parts (s : Session) (inp : AddInput) :
    ((addMessageCoreUnbounded s inp).1).id = s.id ∧
    ((addMessageCoreUnbounded s inp).1).persona = s.persona ∧
    ((addMessageCoreUnbounded s inp).1).context
      = updateContextCore s.context (mkMessageObj s inp) ∧
    ((addMessageCoreUnbounded s inp).1).metadata =
      { s.metadata with lastActivity := inp.now,
                        messageCount := s.metadata.messageCount + 1 } ∧
    ((addMessageCoreUnbounded s inp).1).messages = s.messages ++ [mkMessageObj s inp] := by
  refine ⟨rfl, rfl, rfl, rfl, rfl⟩

theorem mkMessageObj_congr (s su : Session) (inp : AddInput)
    (hp : s.persona = su.persona) (hc : s.context = su.context) :
    mkMessageObj s inp = mkMessageObj su inp := by
  simp [mkMessageObj, hp, hc]

/-- One step of the trim simulation: a session whose history is the last
`maxHistoryLength` entries of an untrimmed run stays in that relation
after one `addMessage`, with all other fields identical. -/
theorem addMessageCore_sim (s su : Session) (inp : AddInput)
    (hid : s.id = su.id) (hp : s.persona = su.persona)
    (hc : s.context = su.context) (hm : s.metadata = su.metadata)
    (hmsg : s.messages = lastN maxHistoryLength su.messages) :
    ((addMessageCore s inp).1).id = ((addMessageCoreUnbounded su inp).1).id ∧
    ((addMessageCore s inp).1).persona = ((addMessageCoreUnbounded su inp).1).persona ∧
    ((addMessageCore s inp).1).context = ((addMessageCoreUnbounded su inp).1).context ∧
    ((addMessageCore s inp).1).metadata = ((addMessageCoreUnbounded su inp).1).metadata ∧
    ((addMessageCore s inp).1).messages
      = lastN maxHistoryLength ((addMessageCoreUnbounded su inp).1).messages := by
  have hobj := mkMessageObj_congr s su inp hp hc
  obtain ⟨u1, u2, u3, u4, u5⟩ := addMessageCoreUnbounded_parts su inp
  refine ⟨?_, ?_, ?_, ?_, ?_⟩
  · rw [addMessageCore_id, u1, hid]
  · rw [addMessageCore_persona, u2, hp]
  · rw [addMessageCore_context, u3, hobj, hc]
  · rw [addMessageCore_metadata, u4, hm]
  · rw [addMessageCore_messages, u5, hobj, hmsg, lastN_snoc_trim]

theorem runSession_sim (inputs : List AddInput) :
    ∀ s su : Session, s.id = su.id → s.persona = su.persona →
      s.context = su.context → s.metadata = su.metadata →
      s.messages = lastN maxHistoryLength su.messages →
      (runSession s inputs).id = (runSessionUnbounded su inputs).id ∧
      (runSession s inputs).persona = (runSessionUnbounded su inputs).persona ∧
      (runSession s inputs).context = (runSessionUnbounded su inputs).context ∧
      (runSession s inputs).metadata = (runSessionUnbounded su inputs).metadata ∧
      (runSession s inputs).messages
        = lastN maxHistoryLength (runSessionUnbounded su inputs).messages := by
  induction inputs with
  | nil =>
    intro s su h1 h2 h3 h4 h5
    exact ⟨h1, h2, h3, h4, h5⟩
  | cons i rest ih =>
    intro s su h1 h2 h3 h4 h5
    obtain ⟨g1, g2, g3, g4, g5⟩ := addMessageCore_sim s su i h1 h2 h3 h4 h5
    simpa only [runSession, runSessionUnbounded, List.foldl_cons] using
      ih ((addMessageCore s i).1) ((addMessageCoreUnbounded su i).1) g1 g2 g3 g4 g5

theorem lastN_le_length {α : Type _} (n : Nat) (l : List α) : (lastN n l).length ≤ n := by
  simp only [lastN, List.length_drop]
  omega

/-- C4: for every sequence of `addMessage` calls on a session, the
stored history never exceeds `maxHistoryLength` (50) messages, and it is
exactly the last 50 entries — a suffix, so the most recent messages in
original order — of the untrimmed append-only history of the same run;
trimming therefore removes exactly the oldest messages. -/
theorem c4_trim_invariant (sid persona : String) (t : Nat) (inputs : List AddInput) :
    (runSession (initializeSession sid persona t) inputs).messages.length
        ≤ maxHistoryLength ∧
    (runSession (initializeSession sid persona t) inputs).messages
      = lastN maxHistoryLength
          (runSessionUnbounded (initializeSession sid persona t) inputs).messages ∧
    List.IsSuffix (runSession (initializeSession sid persona t) inputs).messages
      (runSessionUnbounded (initializeSession sid persona t) inputs).messages := by
  obtain ⟨-, -, -, -, g5⟩ :=
    runSession_sim inputs (initializeSession sid persona t)
      (initializeSession sid persona t) rfl rfl rfl rfl rfl
  refine ⟨?_, g5, ?_⟩
  · rw [g5]; exact lastN_le_length _ _
  · rw [g5]
    exact List.drop_suffix _ _

theorem runSession_messageCount (inputs : List AddInput) :
    ∀ s : Session, (runSession s inputs).metadata.messageCount
      = s.metadata.messageCount + inputs.length := by
  induction inputs with
  | nil => intro s; simp [runSession]
  | cons i rest ih =>
    intro s
    have h := ih ((addMessageCore s i).1)
    simp only [runSession, List.foldl_cons] at h ⊢
    rw [h, addMessageCore_metadata]
    simp only [List.length_cons]
    omega

/-- C5: appending `N` messages to a fresh session leaves
`metadata.messageCount = N`, for every `N` — including `N` beyond the
history cap, since the counter is incremented on every append and
trimming never touches it. -/
theorem c5_messageCount (sid persona : String) (t : Nat) (inputs : List AddInput) :
    (runSession (initializeSession sid persona t) inputs).metadata.messageCount
      = inputs.length := by
  rw [runSession_messageCount]
  simp [initializeSession]

/-! ### Claim C8: the expiry sweep removes exactly the expired sessions -/

theorem foldl_mapDelete (ids : List String) :
    ∀ store : Store, ids.foldl (fun st sid => mapDelete st sid) store
      = store.filter (fun p => !(ids.contains p.1)) := by
  induction ids with
  | nil =>
    intro store
    show store = store.filter (fun p => !(List.contains [] p.1))
    simp [List.contains]
  | cons a t ih =>
    intro store
    simp only [List.foldl_cons]
    rw [ih (mapDelete store a)]
    unfold mapDelete
    rw [List.filter_filter]
    apply List.filter_congr
    intro x hx
    simp only [List.contains_cons, Bool.not_or, bne]
    rw [Bool.and_comm]

/-- C8: on a store with unique keys (the `Map` invariant),
`cleanupExpiredSessions` keeps exactly the sessions whose `lastActivity`
age is within the timeout — every surviving entry is the original entry,
in the original order — and returns the count of removed sessions. -/
theorem c8_sweep_exact (now : Nat) (store : Store)
    (hkeys : (store.map (fun p => p.1)).Nodup) :
    (cleanupExpiredSessions now store).1
      = store.filter (fun p => !(sessionExpired now p.2)) ∧
    (cleanupExpiredSessions now store).2
      = (store.filter (fun p => sessionExpired now p.2)).length := by
  unfold cleanupExpiredSessions
  dsimp only
  refine ⟨?_, List.length_map _ _⟩
  rw [foldl_mapDelete]
  apply List.filter_congr
  intro x hx
  have hmem_iff :
      x.1 ∈ (store.filter (fun p => sessionExpired now p.2)).map (fun p => p.1)
        ↔ sessionExpired now x.2 = true := by
    constructor
    · intro hmem
      rw [List.mem_map] at hmem
      obtain ⟨q, hq, hqx⟩ := hmem
      obtain ⟨hq', hexp⟩ := List.mem_filter.mp hq
      have hqeq : q = x := List.inj_on_of_nodup_map hkeys hq' hx hqx
      rwa [hqeq] at hexp
    · intro hexp
      exact List.mem_map.mpr ⟨x, List.mem_filter.mpr ⟨hx, hexp⟩, rfl⟩
  have hb : ((store.filter (fun p => sessionExpired now p.2)).map
        (fun p => p.1)).contains x.1 = sessionExpired now x.2 := by
    cases hexp : sessionExpired now x.2 with
    | false =>
      cases hcb : ((store.filter (fun p => sessionExpired now p.2)).map
          (fun p => p.1)).contains x.1 with
      | false => rfl
      | true =>
        have hmm := hmem_iff.mp (List.elem_iff.mp hcb)
        rw [hexp] at hmm
        exact absurd hmm (by simp)
    | true => exact List.elem_iff.mpr (hmem_iff.mpr hexp)
  rw [hb]

def c8StaleSession : Session := initializeSession "stale" "general" 0

def c8FreshSession : Session := initializeSession "fresh" "general" 89000000

def c8Store : Store := [("stale", c8StaleSession), ("fresh", c8FreshSession)]

/-- Witness at `now` = 25 hours: the stale session (last activity at 0)
is expired, the fresh one is kept. -/
theorem c8_sweep_exact_witness :
    (c8Store.map (fun p => p.1)).Nodup ∧
    ((cleanupExpiredSessions 90000000 c8Store).1
        = c8Store.filter (fun p => !(sessionExpired 90000000 p.2)) ∧
     (cleanupExpiredSessions 90000000 c8Store).2
        = (c8Store.filter (fun p => sessionExpired 90000000 p.2)).length) :=
  ⟨by decide, c8_sweep_exact 90000000 c8Store (by decide)⟩

/-! ### Claim C9: dedup for requirements/specs/stakeholders, duplicates
allowed for decisions -/

theorem dedupAppendStep_none (t : Bool) (l : List String) :
    dedupAppendStep t none l = l := by
  unfold dedupAppendStep
  split <;> rfl

theorem dedupAppendStep_isEmpty (t : Bool) (s : String) (l : List String)
    (h : s.isEmpty = true) : dedupAppendStep t (some s) l = l := by
  unfold dedupAppendStep
  split
  · dsimp only
    rw [if_pos h]
  · rfl

theorem dedupAppendStep_present (t : Bool) (s : String) (l : List String)
    (h : l.contains s = true) : dedupAppendStep t (some s) l = l := by
  unfold dedupAppendStep
  split
  · dsimp only
    by_cases he : s.isEmpty = true
    · rw [if_pos he]
    · rw [if_neg he, if_pos h]
  · rfl

theorem dedupAppendStep_mem (s : String) (l : List String) (he : s.isEmpty = false) :
    s ∈ dedupAppendStep true (some s) l := by
  unfold dedupAppendStep
  simp only [if_true]
  rw [if_neg (by simp [he])]
  cases hc : l.contains s with
  | true =>
    rw [if_pos rfl]
    exact List.elem_iff.mp hc
  | false =>
    rw [if_neg (by simp)]
    simp

/-- Applying the same guarded dedup push twice with the same extracted
value is idempotent: the second application never appends again. -/
theorem dedupAppendStep_idem (t1 t2 : Bool) (e : Option String) (l : List String)
    (h1 : t1 = true) :
    dedupAppendStep t2 e (dedupAppendStep t1 e l) = dedupAppendStep t1 e l := by
  subst h1
  cases e with
  | none => rw [dedupAppendStep_none, dedupAppendStep_none]
  | some s =>
    cases he : s.isEmpty with
    | true => rw [dedupAppendStep_isEmpty _ _ _ he, dedupAppendStep_isEmpty _ _ _ he]
    | false =>
      exact dedupAppendStep_present _ _ _ (List.elem_iff.mpr (dedupAppendStep_mem s l he))

theorem updateContextCore_businessRequirements (c : Context) (m : Message) :
    (updateContextCore c m).businessRequirements =
      dedupAppendStep (mentionsBusinessRequirement (lowerString m.content))
        (extractRequirementFromMessage m.content) c.businessRequirements := rfl

theorem updateContextCore_technicalSpecs (c : Context) (m : Message) :
    (updateContextCore c m).technicalSpecs =
      dedupAppendStep (mentionsTechnical (lowerString m.content))
        (extractTechnicalSpecFromMessage m.content) c.technicalSpecs := rfl

theorem updateContextCore_stakeholders (c : Context) (m : Message) :
    (updateContextCore c m).stakeholders =
      dedupAppendStep (mentionsStakeholder (lowerString m.content))
        (extractStakeholderFromMessage m.content) c.stakeholders := rfl

theorem updateContextCore_decisions (c : Context) (m : Message) :
    (updateContextCore c m).decisions =
      (if mentionsDecision (lowerString m.content) then
        match extractDecisionFromMessage m.content with
        | some decision =>
          if decision.isEmpty then c.decisions
          else c.decisions ++
            [{ decision := decision, timestamp := m.timestamp, messageId := m.id }]
        | none => c.decisions
      else c.decisions) := rfl

/-- C9: if a first message triggers a dedup-checked block and a second
message extracts the same sentence, the second application leaves
`businessRequirements` (resp. `technicalSpecs`, `stakeholders`)
unchanged — exact string equality is the dedup criterion — while every
message matching the decision block appends a fresh `decisions` entry
to whatever list is already there, identical text included. -/
theorem c9_dedup_vs_decisions (c : Context) (a1 a2 b1 b2 k1 k2 d : Message)
    (dec : String)
    (ha : mentionsBusinessRequirement (lowerString a1.content) = true)
    (haEq : extractRequirementFromMessage a1.content
      = extractRequirementFromMessage a2.content)
    (hb : mentionsTechnical (lowerString b1.content) = true)
    (hbEq : extractTechnicalSpecFromMessage b1.content
      = extractTechnicalSpecFromMessage b2.content)
    (hk : mentionsStakeholder (lowerString k1.content) = true)
    (hkEq : extractStakeholderFromMessage k1.content
      = extractStakeholderFromMessage k2.content)
    (hd : mentionsDecision (lowerString d.content) = true)
    (hdx : extractDecisionFromMessage d.content = some dec)
    (hdne : dec.isEmpty = false) :
    (updateContextCore (updateContextCore c a1) a2).businessRequirements
      = (updateContextCore c a1).businessRequirements ∧
    (updateContextCore (updateContextCore c b1) b2).technicalSpecs
      = (updateContextCore c b1).technicalSpecs ∧
    (updateContextCore (updateContextCore c k1) k2).stakeholders
      = (updateContextCore c k1).stakeholders ∧
    (updateContextCore c d).decisions
      = c.decisions ++ [{ decision := dec, timestamp := d.timestamp,
                          messageId := d.id }] := by
  refine ⟨?_, ?_, ?_, ?_⟩
  · rw [updateContextCore_businessRequirements (updateContextCore c a1) a2,
        updateContextCore_businessRequirements c a1, ← haEq]
    exact dedupAppendStep_idem _ _ _ _ ha
  · rw [updateContextCore_technicalSpecs (updateContextCore c b1) b2,
        updateContextCore_technicalSpecs c b1, ← hbEq]
    exact dedupAppendStep_idem _ _ _ _ hb
  · rw [updateContextCore_stakeholders (updateContextCore c k1) k2,
        updateContextCore_stakeholders c k1, ← hkEq]
    exact dedupAppendStep_idem _ _ _ _ hk
  · rw [updateContextCore_decisions, hd, hdx]
    simp [hdne]

def c9Msg (content : String) : Message :=
  { id := "msg_9_w", role := "user", content := content, timestamp := 7,
    metadata := { persona := "general", phase := "discovery" } }

/-- A context that already records the decision text the witness message
re-extracts, so the witnessed append duplicates an existing entry. -/
def c9BaseContext : Context :=
  { currentProject := none
    businessRequirements := []
    technicalSpecs := []
    implementationPhase := "discovery"
    stakeholders := []
    decisions := [{ decision := "We will choose SAP", timestamp := 0, messageId := "m0" }]
    openIssues := [] }

theorem c9_dedup_vs_decisions_witness :
    (mentionsBusinessRequirement
        (lowerString (c9Msg "The business process must be fast").content) = true ∧
     mentionsTechnical
        (lowerString (c9Msg "The system integration is hard").content) = true ∧
     mentionsStakeholder
        (lowerString (c9Msg "The team is large").content) = true ∧
     mentionsDecision
        (lowerString (c9Msg "We will choose SAP").content) = true ∧
     extractDecisionFromMessage (c9Msg "We will choose SAP").content
        = some "We will choose SAP" ∧
     String.isEmpty "We will choose SAP" = false) ∧
    ((updateContextCore (updateContextCore c9BaseContext
          (c9Msg "The business process must be fast"))
        (c9Msg "The business process must be fast")).businessRequirements
      = (updateContextCore c9BaseContext
          (c9Msg "The business process must be fast")).businessRequirements ∧
     (updateContextCore (updateContextCore c9BaseContext
          (c9Msg "The system integration is hard"))
        (c9Msg "The system integration is hard")).technicalSpecs
      = (updateContextCore c9BaseContext
          (c9Msg "The system integration is hard")).technicalSpecs ∧
     (updateContextCore (updateContextCore c9BaseContext
          (c9Msg "The team is large"))
        (c9Msg "The team is large")).stakeholders
      = (updateContextCore c9BaseContext
          (c9Msg "The team is large")).stakeholders ∧
     (updateContextCore c9BaseContext (c9Msg "We will choose SAP")).decisions
      = c9BaseContext.decisions ++
          [{ decision := "We will choose SAP", timestamp := 7,
             messageId := "msg_9_w" }]) :=
  ⟨⟨by decide, by decide, by decide, by decide, by decide, by decide⟩,
   c9_dedup_vs_decisions c9BaseContext
     (c9Msg "The business process must be fast")
     (c9Msg "The business process must be fast")
     (c9Msg "The system integration is hard")
     (c9Msg "The system integration is hard")
     (c9Msg "The team is large")
     (c9Msg "The team is large")
     (c9Msg "We will choose SAP")
     "We will choose SAP"
     (by decide) rfl (by decide) rfl (by decide) rfl (by decide) (by decide) (by decide)⟩

/-! ### Claim C6: the context summary template -/

/-- The summary text as the spec describes it (§4.3): a fixed template
over the already-selected components — persona, phase, total message
count, the given requirement/spec lines, decisions and open issues with
timestamps, and the recent messages as `role: content` lines. -/
def specSummaryTemplate (persona phase : String) (messageCount : Nat)
    (reqs specs : List String) (decisions : List Decision)
    (issues : List Issue) (recent : List (String × String)) : String :=
  "\nCONVERSATION CONTEXT:\n- Current Persona: " ++ persona ++
  "\n- Implementation Phase: " ++ phase ++
  "\n- Total Messages: " ++ toString messageCount ++
  "\n\nBUSINESS REQUIREMENTS IDENTIFIED:\n" ++
  String.intercalate "\n" (reqs.map (fun req => "- " ++ req)) ++
  "\n\nTECHNICAL SPECIFICATIONS:\n" ++
  String.intercalate "\n" (specs.map (fun spec => "- " ++ spec)) ++
  "\n\nRECENT DECISIONS:\n" ++
  String.intercalate "\n" (decisions.map
    (fun dec => "- " ++ dec.decision ++ " (" ++ toString dec.timestamp ++ ")")) ++
  "\n\nOPEN ISSUES:\n" ++
  String.intercalate "\n" (issues.map
    (fun issue => "- " ++ issue.issue ++ " (" ++ toString issue.timestamp ++ ")")) ++
  "\n\nRECENT CONVERSATION:\n" ++
  String.intercalate "\n" (recent.map (fun msg => msg.1 ++ ": " ++ msg.2)) ++
  "\n    "

/-- C6: for every existing session the generated summary is exactly the
fixed template applied to: the persona, the phase, the total (monotonic)
message count, the last 5 business requirements, the last 3 technical
specs, the last 3 decisions with their timestamps, the open issues
restricted to `status = "open"` and limited to the last 3, and the last
5 messages with each content truncated to its first 200 characters with
`"..."` appended iff it was longer than 200. -/
theorem c6_summary_exact (store : Store) (sid : String) (session : Session)
    (h : mapGet store sid = some session) :
    generateContextSummary store sid =
      specSummaryTemplate session.persona session.context.implementationPhase
        session.metadata.messageCount
        (lastN 5 session.context.businessRequirements)
        (lastN 3 session.context.technicalSpecs)
        (lastN 3 session.context.decisions)
        (lastN 3 (session.context.openIssues.filter
          (fun issue => issue.status == "open")))
        ((lastN 5 session.messages).map (fun msg =>
          (msg.role,
           String.mk (msg.content.data.take 200) ++
             (if 200 < msg.content.data.length then "..." else "")))) := by
  unfold generateContextSummary specSummaryTemplate truncateForSummary
  rw [h]
  simp only [List.map_map]
  rfl

def c6Msg : Message :=
  { id := "msg_1_c6", role := "user", content := "Hi", timestamp := 1,
    metadata := { persona := "sap_consultant", phase := "discovery" } }

def c6Session : Session :=
  { id := "w6"
    persona := "sap_consultant"
    messages := [c6Msg]
    context :=
      { currentProject := none
        businessRequirements := ["r1", "r2"]
        technicalSpecs := ["t1"]
        implementationPhase := "design"
        stakeholders := []
        decisions := [{ decision := "d1", timestamp := 2, messageId := "m1" }]
        openIssues := [{ issue := "i1", timestamp := 2, status := "open", messageId := "m1" },
                       { issue := "i2", timestamp := 3, status := "resolved", messageId := "m2" }] }
    metadata :=
      { createdAt := 0, lastActivity := 1, messageCount := 1,
        analysisResults := [], generatedArtifacts := [] } }

def c6Store : Store := [("w6", c6Session)]

theorem c6_summary_exact_witness :
    mapGet c6Store "w6" = some c6Session ∧
    generateContextSummary c6Store "w6" =
      specSummaryTemplate c6Session.persona c6Session.context.implementationPhase
        c6Session.metadata.messageCount
        (lastN 5 c6Session.context.businessRequirements)
        (lastN 3 c6Session.context.technicalSpecs)
        (lastN 3 c6Session.context.decisions)
        (lastN 3 (c6Session.context.openIssues.filter
          (fun issue => issue.status == "open")))
        ((lastN 5 c6Session.messages).map (fun msg =>
          (msg.role,
           String.mk (msg.content.data.take 200) ++
             (if 200 < msg.content.data.length then "..." else "")))) :=
  ⟨rfl, c6_summary_exact c6Store "w6" c6Session rfl⟩

end EvaErp
